import Mathlib

set_option maxRecDepth 4000

namespace NTCReader

/-- Number of values of the C type `size_t` (64-bit): arithmetic on `size_t` wraps modulo this. -/
def u64Mod : Nat := 18446744073709551616

/-- Number of values of the C type `uint32_t`: arithmetic on `uint32_t` wraps modulo this. -/
def u32Mod : Nat := 4294967296

/-- Largest `size_t` value; `LutBracket`'s default `exactIdx` (SIZE_MAX in lut_utils.h). -/
def SIZE_MAX : Nat := u64Mod - 1

/-- Subtraction of `uint32_t` values `a b < u32Mod`: wraps modulo `2^32` (lut_utils.h computes
the deltas `r_cold_x10 - r_hot_x10` and `r_cold_x10 - r_measured_x10` in the unsigned key type
before promoting to 64 bits). -/
def u32sub (a b : Nat) : Nat := (a + u32Mod - b) % u32Mod

/-- Conversion of a 64-bit signed value to `int16_t` (`static_cast<Temp>` in lut_utils.h and the
`Temp delta_t` assignment): reduce to the representative in `[-32768, 32767]` modulo `2^16`. -/
def wrap16 (x : Int) : Int := Int.emod (x + 32768) 65536 - 32768

/-- math::clamp from utils/helpers.h: `(value < min) ? min : (value > max) ? max : value`. -/
def math.clamp (value lowBound highBound : Int) : Int :=
  if value < lowBound then lowBound
  else if highBound < value then highBound
  else value

/-- Sensors::LUT_TEMPERATURE_MIN_C from config/Config.h. -/
def LUT_TEMPERATURE_MIN_C : Int := -40

/-- Sensors::LUT_TEMPERATURE_MAX_C from config/Config.h. -/
def LUT_TEMPERATURE_MAX_C : Int := 40

/-- Modelled from the spec: the calibration table data (data/thermistor_lut.h, `NTC_LUT`) is not
under src; per the spec the table spans -40 °C to +40 °C in 1 °C steps with resistance strictly
decreasing, so its first (coldest) entry stores `temperature_x10 = -400`. -/
def NTC_LUT_first_temperature_x10 : Int := -400

/-- Modelled from the spec: the calibration table data (data/thermistor_lut.h, `NTC_LUT`) is not
under src; per the spec its last (hottest) entry stores `temperature_x10 = 400`. -/
def NTC_LUT_last_temperature_x10 : Int := 400

/-- lut_utils::LutOrder. -/
inductive LutOrder where
  | DECREASING
  | INCREASING
  | AUTO
deriving DecidableEq

/-- lut_utils::LutBracket (result struct of the binary search). -/
structure LutBracket where
  lowerIdx : Nat
  upperIdx : Nat
  exactIdx : Nat
  foundExact : Bool
  outOfRange : Bool
  clamped : Bool
deriving DecidableEq

/-- Outcome of running the binary-search loop: a bracket, an out-of-bounds array access at the
recorded index (undefined behavior in the C++ source, made explicit here), or fuel exhaustion
(the C++ loop has no fuel; the bound only makes the model total). -/
inductive BsResult where
  | ok (bracket : LutBracket)
  | oobAccess (idx : Nat)
  | noFuel
deriving DecidableEq

/-- The `goLeft` ternary of lut_utils.h line 135:
`(order == LutOrder::INCREASING) ? isTargetLessThanMid : !isTargetLessThanMid`. -/
def goLeftCond (order : LutOrder) (target midKey : Nat) : Bool :=
  match order with
  | .INCREASING => decide (target < midKey)
  | _ => ! decide (target < midKey)

/-- The `while (left <= right)` loop of lut_utils::binarySearchLut followed by its Step3
bracket determination, with `size_t` wrap-around made explicit (`right = mid - 1` wraps
modulo `2^64` when `mid = 0`) and every array access bounds-checked: an access outside
`[0, N-1]` stops the model with `oobAccess` (it is undefined behavior in the source). -/
def bsLoop (keys : List Nat) (target : Nat) (order : LutOrder) :
    Nat → Nat → Nat → BsResult
  | _, _, 0 => .noFuel
  | left, right, fuel + 1 =>
    if left ≤ right then
      let mid := left + (right - left) / 2
      if mid < keys.length then
        let midKey := keys.getD mid 0
        if midKey = target then
          .ok ⟨mid, mid, mid, true, false, false⟩
        else if goLeftCond order target midKey then
          bsLoop keys target order left ((mid + (u64Mod - 1)) % u64Mod) fuel
        else
          bsLoop keys target order ((mid + 1) % u64Mod) right fuel
      else
        .oobAccess mid
    else
      if left = 0 then
        .ok ⟨0, 1, SIZE_MAX, false, true, true⟩
      else if keys.length - 1 ≤ right then
        .ok ⟨keys.length - 2, keys.length - 1, SIZE_MAX, false, true, true⟩
      else
        .ok ⟨right, left, SIZE_MAX, false, false, false⟩

/-- Step1 of lut_utils::binarySearchLut: resolve `LutOrder::AUTO` by comparing the first two
keys; tables with fewer than 2 entries fall back to `INCREASING`. -/
def resolveLutOrder (keys : List Nat) (order : LutOrder) : LutOrder :=
  match order with
  | .AUTO =>
    if keys.length < 2 then .INCREASING
    else if keys.getD 0 0 ≤ keys.getD 1 0 then .INCREASING
    else .DECREASING
  | o => o

/-- lut_utils::binarySearchLut over a table projected to its key list: search bounds start at
`left = 0`, `right = N - 1` (computed in `size_t`, so `N = 0` wraps), with fuel `2^64`. -/
def binarySearchLut (keys : List Nat) (target : Nat) (order : LutOrder) : BsResult :=
  bsLoop keys target (resolveLutOrder keys order) 0
    ((keys.length + (u64Mod - 1)) % u64Mod) u64Mod

/-- lut_utils::applyLinearInterpolation instantiated at the types the program uses
(`Res = uint32_t`, `Temp = int16_t`): the key deltas are computed in `uint32_t`, the
temperature delta in `int16_t`, products and divisions in `int64_t` with truncating
division, then the conditional clamp of lines 229-244 and the final narrowing cast. -/
def applyLinearInterpolation (r_measured_x10 r_cold_x10 r_hot_x10 : Nat)
    (t_cold_x10 t_hot_x10 : Int) : Int :=
  if r_cold_x10 = r_hot_x10 then t_cold_x10
  else
    let delta_r := u32sub r_cold_x10 r_hot_x10
    let delta_r_measured := u32sub r_cold_x10 r_measured_x10
    let delta_t := wrap16 (t_hot_x10 - t_cold_x10)
    let t_interpolated_x10 :=
      t_cold_x10 + Int.tdiv (delta_t * (delta_r_measured : Int)) (delta_r : Int)
    let t_final :=
      if t_interpolated_x10 < LUT_TEMPERATURE_MIN_C * 10 ∨
          LUT_TEMPERATURE_MAX_C * 10 < t_interpolated_x10 then
        math.clamp t_interpolated_x10 NTC_LUT_last_temperature_x10 NTC_LUT_first_temperature_x10
      else t_interpolated_x10
    wrap16 t_final

/-- Follows the spec's words (section 4.2), for comparison with `applyLinearInterpolation`:
`value = lowValue + (highValue - lowValue) * (lowKey - target) / (lowKey - highKey)` with
truncating division carried out in 64-bit integers. -/
def specInterpFormula (target lowKey highKey lowValue highValue : Int) : Int :=
  lowValue + Int.tdiv ((highValue - lowValue) * (lowKey - target)) (lowKey - highKey)

/-- Outcome of LutTemperatureConverter::convertToTemperature_x10; search failures
(out-of-bounds access, fuel) propagate from the model of the binary search. -/
inductive TempResult where
  | ok (temperature_x10 : Int)
  | oobAccess (idx : Nat)
  | noFuel
deriving DecidableEq

/-- LutTemperatureConverter::convertToTemperature_x10. The calibration table is a parameter
(entries are `(resistance_x10, temperature_x10)` pairs) because the concrete `NTC_LUT` data of
data/thermistor_lut.h is not under src; per the spec that table is strictly decreasing in
resistance. The searched key list is the resistance projection, the order hint is
`DECREASING`, exactly as in the source. -/
def convertToTemperature_x10 (lut : List (Nat × Int)) (resistance_x10 : Nat) : TempResult :=
  if resistance_x10 = 0 then .ok (-32768)
  else
    match binarySearchLut (lut.map Prod.fst) resistance_x10 .DECREASING with
    | .oobAccess i => .oobAccess i
    | .noFuel => .noFuel
    | .ok bracket =>
      if bracket.outOfRange then
        if bracket.clamped then
          if (lut.getD 0 (0, 0)).1 < resistance_x10 then .ok (lut.getD 0 (0, 0)).2
          else .ok (lut.getD (lut.length - 1) (0, 0)).2
        else .ok (-32768)
      else if bracket.foundExact then .ok (lut.getD bracket.exactIdx (0, 0)).2
      else
        let cold := lut.getD bracket.lowerIdx (0, 0)
        let hot := lut.getD bracket.upperIdx (0, 0)
        .ok (applyLinearInterpolation resistance_x10 cold.1 hot.1 cold.2 hot.2)

/-- VoltageDividerResistanceConverter::convertToResistance_x10: validation
`adc_raw == 0 || adc_raw > Adc::MAX_VALUE` (MAX_VALUE = 1023) returns 0, else the voltage
divider formula in `uint32_t`. Division by zero is undefined behavior in C++; the model
returns `none` there, `some r` on defined paths. -/
def convertToResistance_x10 (fixedResistor adc_raw : Nat) : Option Nat :=
  if adc_raw = 0 ∨ 1023 < adc_raw then some 0
  else if 1023 - adc_raw = 0 then none
  else some (adc_raw * fixedResistor * 10 % u32Mod / (1023 - adc_raw))

/-- AdcSampler constructor: `samples_per_read_ = (samples_to_average > 0) ? samples_to_average : 1`. -/
def AdcSampler.samplesPerRead (samples_to_average : Nat) : Nat :=
  if 0 < samples_to_average then samples_to_average else 1

/-- AdcSampler::sample. The hardware reads are modelled by `source i` = result of the i-th
`analogRead` of the call; the first `discard_N_first` reads are discarded, the next
`samples_per_read` accumulate into a `uint32_t`, then the rounded mean (uint16 cast made
explicit) and the final clamp to `Adc::MAX_VALUE = 1023`. The settle delay `settleUs`
only pauses execution and cannot affect the value. -/
def AdcSampler.sample (samples_per_read discard_N_first settleUs : Nat)
    (source : Nat → Nat) : Nat :=
  let accumulated := (List.range samples_per_read).foldl
    (fun acc i => (acc + source (discard_N_first + i)) % u32Mod) 0
  let avg :=
    if samples_per_read = 1 then accumulated % 65536
    else (accumulated + samples_per_read / 2) / samples_per_read % 65536
  if 1023 < avg then 1023 else avg

/-- The temperature sentinel `-32768` returned on every failure path. -/
def SENTINEL_TEMPERATURE_x10 : Int := -32768

/-- TemperatureSensor::readTemperature_x10. Components are optional, as the fluent builder
leaves them: a missing sampler/resistance-converter/temperature-converter is `none`.
The sampler is modelled by the raw value it would acquire, the converters by pure functions,
the attached filter by a state-transition function `state → input → (newState, output)`
together with its current state. The result records (returned value, filter state after the
call, whether the sampler was invoked). -/
def TemperatureSensor.readTemperature_x10
    (sampler : Option Nat) (resistanceConverter : Option (Nat → Nat))
    (temperatureConverter : Option (Nat → Int))
    (filter : Option (Int → Int → Int × Int)) (filterState : Int) :
    Int × Int × Bool :=
  match sampler, resistanceConverter, temperatureConverter with
  | some adc_raw, some rc, some tc =>
    let resistance_x10 := rc adc_raw
    if resistance_x10 = 0 then (SENTINEL_TEMPERATURE_x10, filterState, true)
    else
      let temperature_x10 := tc resistance_x10
      if temperature_x10 = SENTINEL_TEMPERATURE_x10 then
        (SENTINEL_TEMPERATURE_x10, filterState, true)
      else
        match filter with
        | some f => ((f filterState temperature_x10).2, (f filterState temperature_x10).1, true)
        | none => (temperature_x10, filterState, true)
  | _, _, _ => (SENTINEL_TEMPERATURE_x10, filterState, false)

/-- EmaFilter::begin alpha validation: `if (alpha_ < 0 || alpha_ > 1) alpha_ = 0.5`. The
`float` factor is modelled as a rational: begin() only compares it and assigns the exactly
representable constant 0.5, so the rational model mirrors the float comparisons. -/
def EmaFilter.beginAlpha (alpha : ℚ) : ℚ :=
  if alpha < 0 ∨ 1 < alpha then 1 / 2 else alpha

/-- Strict monotonicity of a key list in the sense matching a search order hint: the order
the table actually has for `INCREASING`/`DECREASING`, either order (with the two entries
`AUTO` inspects present) for `AUTO`. -/
def strictMonoKeys : LutOrder → List Nat → Prop
  | .INCREASING, keys => List.Pairwise (fun a b => a < b) keys
  | .DECREASING, keys => List.Pairwise (fun a b => b < a) keys
  | .AUTO, keys => 2 ≤ keys.length ∧
      (List.Pairwise (fun a b => a < b) keys ∨ List.Pairwise (fun a b => b < a) keys)

instance (o : LutOrder) (keys : List Nat) : Decidable (strictMonoKeys o keys) :=
  match o with
  | .INCREASING => inferInstanceAs (Decidable (List.Pairwise (fun a b => a < b) keys))
  | .DECREASING => inferInstanceAs (Decidable (List.Pairwise (fun a b => b < a) keys))
  | .AUTO => inferInstanceAs (Decidable (_ ∧ (_ ∨ _)))

lemma u32sub_self (a : Nat) : u32sub a a = 0 := by
  unfold u32sub
  have h : a + u32Mod - a = u32Mod := by omega
  rw [h, Nat.mod_self]

lemma u32sub_of_le (a b : Nat) (hba : b ≤ a) (ha : a < u32Mod) : u32sub a b = a - b := by
  unfold u32sub
  have h1 : a + u32Mod - b = (a - b) + u32Mod := by omega
  rw [h1, Nat.add_mod_right]
  exact Nat.mod_eq_of_lt (by omega)

lemma u32sub_ne_zero (a b : Nat) (hne : a ≠ b) (ha : a < u32Mod) (hb : b < u32Mod) :
    u32sub a b ≠ 0 := by
  rcases Nat.lt_or_ge b a with h | h
  · rw [u32sub_of_le a b (Nat.le_of_lt h) ha]
    omega
  · unfold u32sub
    have h1 : a + u32Mod - b < u32Mod := by omega
    rw [Nat.mod_eq_of_lt h1]
    omega

lemma wrap16_eq_self (x : Int) (h1 : -32768 ≤ x) (h2 : x ≤ 32767) : wrap16 x = x := by
  unfold wrap16
  show (x + 32768) % 65536 - 32768 = x
  omega

lemma size_t_pred (n : Nat) (h1 : 1 ≤ n) (h2 : n < u64Mod) :
    (n + (u64Mod - 1)) % u64Mod = n - 1 := by
  simp only [u64Mod] at h2 ⊢
  omega

lemma size_t_succ (n : Nat) (h : n + 1 < u64Mod) : (n + 1) % u64Mod = n + 1 :=
  Nat.mod_eq_of_lt h

lemma pairwise_getD (keys : List Nat) (R : Nat → Nat → Prop) (h : List.Pairwise R keys)
    (a b : Nat) (hab : a < b) (hb : b < keys.length) : R (keys.getD a 0) (keys.getD b 0) := by
  have ha : a < keys.length := Nat.lt_trans hab hb
  rw [List.getD_eq_getElem keys 0 ha, List.getD_eq_getElem keys 0 hb]
  rw [List.pairwise_iff_get] at h
  have := h ⟨a, ha⟩ ⟨b, hb⟩ hab
  simpa [List.get_eq_getElem] using this

/-- C2: the spec's claim that `bracket` is a total function with every table access inside
`[0, N-1]` is REFUTED by the code: on the strictly increasing table `[10, 20]` with target 5
(beyond the low end of the search range), `right = mid - 1` underflows the `size_t` to
`SIZE_MAX` and the next iteration reads index `(SIZE_MAX - 0) / 2 = 2^63 - 1`, far outside
the table. -/
theorem c2_bracket_not_total :
    binarySearchLut [10, 20] 5 .INCREASING = .oobAccess 9223372036854775807 := by decide

/-- C1: the spec's claim that targets beyond the table's first entry yield a clamped `[0, 1]`
bracket and the edge temperature is REFUTED: on a strictly decreasing two-entry table with
resistances 200 and 100 and temperatures -400 and 400, a target resistance of 300 (above the
maximum, the colder edge) makes the search underflow and read index `2^63 - 1` out of bounds
instead of returning the `[0, 1]` bracket and `-400`; the error propagates through
`convertToTemperature_x10`. -/
theorem c1_out_of_range_above_max_oob :
    convertToTemperature_x10 [(200, -400), (100, 400)] 300 = .oobAccess 9223372036854775807 := by
  decide

/-- C3: the claim that a raw value of exactly 1023 yields resistance 0 without dividing by
zero is REFUTED: the guard `adc_raw > Adc::MAX_VALUE` is strict, so `adc_raw = 1023` reaches
the divider formula and divides by `1023 - 1023 = 0` (undefined behavior, `none` in the
model); raw 0 does return 0 as claimed. -/
theorem c3_max_raw_divide_by_zero :
    convertToResistance_x10 12700 0 = some 0 ∧ convertToResistance_x10 12700 1023 = none := by
  decide

/-- C5: the claim that the interpolated value is clamped into the range spanned by the
table's extreme entries is REFUTED: the clamp call passes the table's last temperature (400,
the maximum) as the lower bound and the first (-400, the minimum) as the upper bound, so a
formula result of 420 (above the range) returns -400 instead of 400, and a result of -420
(below the range) returns 400 instead of -400; in-range results pass through unchanged. -/
theorem c5_clamp_returns_opposite_edge :
    applyLinearInterpolation 800 1000 900 380 400 = -400 ∧
    applyLinearInterpolation 800 1000 900 (-380) (-400) = 400 ∧
    applyLinearInterpolation 950 1000 900 0 10 = 5 := by decide

/-- C10 counterexample: the claim that every constructor argument outside `(0, 1]` is
replaced by 0.5 fails at alpha = 0: the check `alpha < 0 || alpha > 1` keeps 0 unchanged,
so after begin() the factor is 0, outside `(0, 1]` and not the default. -/
theorem c10_alpha_zero_counterexample :
    EmaFilter.beginAlpha 0 = 0 ∧ ¬ (0 < EmaFilter.beginAlpha 0) := by
  have h : EmaFilter.beginAlpha 0 = 0 := by
    unfold EmaFilter.beginAlpha
    norm_num
  exact ⟨h, by rw [h]; exact lt_irrefl 0⟩

/-- C10 (amended): after begin() the smoothing factor lies in the closed interval `[0, 1]`:
a constructor argument outside `[0, 1]` is replaced by the safe default 0.5, and an argument
inside `[0, 1]` (including 0) is kept unchanged. -/
theorem c10_alpha_validation (a : ℚ) :
    (0 ≤ EmaFilter.beginAlpha a ∧ EmaFilter.beginAlpha a ≤ 1) ∧
    ((a < 0 ∨ 1 < a) → EmaFilter.beginAlpha a = 1 / 2) ∧
    (0 ≤ a → a ≤ 1 → EmaFilter.beginAlpha a = a) := by
  unfold EmaFilter.beginAlpha
  by_cases h : a < 0 ∨ 1 < a
  · rw [if_pos h]
    refine ⟨⟨by norm_num, by norm_num⟩, fun _ => rfl, fun h1 h2 => ?_⟩
    rcases h with h | h <;> linarith
  · rw [if_neg h]
    push_neg at h
    exact ⟨⟨h.1, h.2⟩, fun hc => absurd hc (not_or.mpr ⟨not_lt.mpr h.1, not_lt.mpr h.2⟩),
      fun _ _ => rfl⟩

/-- C10 witness: the invalid factor 2 is replaced by the default 0.5. -/
theorem c10_alpha_validation_witness : EmaFilter.beginAlpha 2 = 1 / 2 :=
  (c10_alpha_validation 2).2.1 (Or.inr (by norm_num))

/-- C9 counterexample: endpoint exactness fails for bracket values outside the table's
temperature range: at `target = lowKey = 100` with `lowValue = 500` the formula returns
exactly 500, but 500 exceeds the clamp threshold 400 and the (inverted) clamp turns it into
-400, not the claimed `lowValue`. -/
theorem c9_endpoint_counterexample :
    applyLinearInterpolation 100 100 50 500 600 ≠ 500 := by decide

/-- C9 (amended): endpoint exactness holds for brackets whose two keys are distinct
`uint32_t` values and whose values lie within the calibration output range
`[-400, 400]` (temperature_x10 of the table's span): interpolating at `target = lowKey`
returns exactly `lowValue` and at `target = highKey` exactly `highValue`, in either key
order; outside that value range the post-interpolation clamp can alter the endpoint value. -/
theorem c9_endpoint_exactness (r_cold r_hot : Nat) (t_cold t_hot : Int)
    (hne : r_cold ≠ r_hot) (hc : r_cold < u32Mod) (hh : r_hot < u32Mod)
    (hc1 : -400 ≤ t_cold) (hc2 : t_cold ≤ 400) (hh1 : -400 ≤ t_hot) (hh2 : t_hot ≤ 400) :
    applyLinearInterpolation r_cold r_cold r_hot t_cold t_hot = t_cold ∧
    applyLinearInterpolation r_hot r_cold r_hot t_cold t_hot = t_hot := by
  have hdt : wrap16 (t_hot - t_cold) = t_hot - t_cold := wrap16_eq_self _ (by omega) (by omega)
  have hd0 : u32sub r_cold r_hot ≠ 0 := u32sub_ne_zero _ _ hne hc hh
  have hd0' : ((u32sub r_cold r_hot : Nat) : Int) ≠ 0 := Int.natCast_ne_zero.mpr hd0
  constructor
  · simp only [applyLinearInterpolation, if_neg hne, u32sub_self, hdt, Nat.cast_zero,
      mul_zero, Int.zero_tdiv, add_zero, LUT_TEMPERATURE_MIN_C, LUT_TEMPERATURE_MAX_C]
    rw [if_neg (by omega)]
    exact wrap16_eq_self _ (by omega) (by omega)
  · simp only [applyLinearInterpolation, if_neg hne, hdt, LUT_TEMPERATURE_MIN_C,
      LUT_TEMPERATURE_MAX_C]
    rw [Int.mul_tdiv_cancel _ hd0']
    have hsum : t_cold + (t_hot - t_cold) = t_hot := by ring
    rw [hsum, if_neg (by omega)]
    exact wrap16_eq_self _ (by omega) (by omega)

/-- C9 witness: on the descending bracket (1000, 900) with values (7, 10), interpolation at
each key returns that key's value. -/
theorem c9_endpoint_exactness_witness :
    applyLinearInterpolation 1000 1000 900 7 10 = 7 ∧
    applyLinearInterpolation 900 1000 900 7 10 = 10 :=
  c9_endpoint_exactness 1000 900 7 10 (by decide) (by decide) (by decide)
    (by decide) (by decide) (by decide) (by decide)

/-- C4 counterexample: the interpolation equality does not hold independently of key order.
On the ascending bracket `lowKey = 50 < highKey = 100` with values 0 and 2 at target 75, the
spec formula gives `0 + 2 * (50 - 75) / (50 - 100) = 1`, but the code computes the key deltas
in `uint32_t`, where `50 - 100` wraps to `2^32 - 50`, and returns 2. -/
theorem c4_ascending_order_counterexample :
    applyLinearInterpolation 75 50 100 0 2 ≠ specInterpFormula 75 50 100 0 2 ∧
    applyLinearInterpolation 75 50 100 0 2 = 2 ∧ specInterpFormula 75 50 100 0 2 = 1 := by
  decide

/-- C4 (amended): for brackets in descending key order (`highKey < lowKey`, the order the
lookup engine produces on the NTC table) with `target ≤ lowKey`, keys within `uint32_t`
range, a value delta within `int16_t` range, and a formula result within the clamp window
`[-400, 400]`, the returned value equals exactly
`lowValue + (highValue - lowValue) * (lowKey - target) / (lowKey - highKey)` with truncating
64-bit arithmetic; the equality does not extend to ascending brackets because the key deltas
are computed in unsigned 32-bit arithmetic before the 64-bit promotion. -/
theorem c4_interpolation_formula (r_measured r_cold r_hot : Nat) (t_cold t_hot : Int)
    (hrh : r_hot < r_cold) (hrm : r_measured ≤ r_cold) (hc : r_cold < u32Mod)
    (hd1 : -32768 ≤ t_hot - t_cold) (hd2 : t_hot - t_cold ≤ 32767)
    (hlo : -400 ≤ specInterpFormula (r_measured : Int) (r_cold : Int) (r_hot : Int) t_cold t_hot)
    (hhi : specInterpFormula (r_measured : Int) (r_cold : Int) (r_hot : Int) t_cold t_hot ≤ 400) :
    applyLinearInterpolation r_measured r_cold r_hot t_cold t_hot =
      specInterpFormula (r_measured : Int) (r_cold : Int) (r_hot : Int) t_cold t_hot := by
  have hne : r_cold ≠ r_hot := by omega
  have e1 : u32sub r_cold r_hot = r_cold - r_hot := u32sub_of_le _ _ (by omega) hc
  have e2 : u32sub r_cold r_measured = r_cold - r_measured := u32sub_of_le _ _ hrm hc
  have hdt : wrap16 (t_hot - t_cold) = t_hot - t_cold := wrap16_eq_self _ hd1 hd2
  unfold specInterpFormula at hlo hhi ⊢
  simp only [applyLinearInterpolation, if_neg hne, e1, e2, hdt, LUT_TEMPERATURE_MIN_C,
    LUT_TEMPERATURE_MAX_C, Nat.cast_sub hrm, Nat.cast_sub (Nat.le_of_lt hrh)]
  rw [if_neg (by omega)]
  exact wrap16_eq_self _ (by omega) (by omega)

/-- C4 witness: descending bracket (1000, 900) with values (0, 10) at target 950: the code
and the spec formula agree (both give 5). -/
theorem c4_interpolation_formula_witness :
    applyLinearInterpolation 950 1000 900 0 10 =
      specInterpFormula ((950 : Nat) : Int) ((1000 : Nat) : Int) ((900 : Nat) : Int) 0 10 :=
  c4_interpolation_formula 950 1000 900 0 10 (by decide) (by decide) (by decide)
    (by decide) (by decide) (by decide) (by decide)

lemma sum_le_of_forall_le (l : List Nat) (n : Nat) (h : ∀ x ∈ l, x ≤ n) :
    l.sum ≤ l.length * n := by
  induction l with
  | nil => simp
  | cons x xs ih =>
    simp only [List.sum_cons, List.length_cons]
    have hx : x ≤ n := h x (by simp)
    have hxs := ih (fun y hy => h y (by simp [hy]))
    have : (xs.length + 1) * n = xs.length * n + n := by ring
    omega

lemma foldl_accumulate (f : Nat → Nat) (l : List Nat) (acc : Nat)
    (h : acc + (l.map f).sum < u32Mod) :
    l.foldl (fun a i => (a + f i) % u32Mod) acc = acc + (l.map f).sum := by
  induction l generalizing acc with
  | nil => simp
  | cons x xs ih =>
    simp only [List.foldl_cons, List.map_cons, List.sum_cons] at h ⊢
    rw [Nat.mod_eq_of_lt (by omega), ih (acc + f x) (by omega)]
    omega

/-- C8: sample() returns the rounded mean of the `samples_per_read` accumulated acquisitions
after the discarded ones — `(sum + count / 2) / count` when the count is not 1, the raw
accumulated value when the count is exactly 1 — clamped to the raw range `[0, 1023]`; and on
the raw sequence `[10, 10, 10, 10, 20, 20, 20, 20]` with discard = 4 and average = 4 it
returns 20 for every settle-delay value. -/
theorem c8_sample_rounded_mean :
    (∀ (count discard settle : Nat) (source : Nat → Nat),
       1 ≤ count → count ≤ 255 → (∀ i, source i ≤ 1023) →
       AdcSampler.sample count discard settle source =
         min (if count = 1
              then ((List.range count).map (fun i => source (discard + i))).sum
              else (((List.range count).map (fun i => source (discard + i))).sum + count / 2)
                     / count)
             1023)
    ∧ (∀ settle : Nat,
        AdcSampler.sample (AdcSampler.samplesPerRead 4) 4 settle
          (fun i => [10, 10, 10, 10, 20, 20, 20, 20].getD i 0) = 20) := by
  constructor
  · intro count discard settle source h1 h255 hsrc
    have hu : u32Mod = 4294967296 := rfl
    have hlen : ((List.range count).map (fun i => source (discard + i))).length = count := by
      simp
    have hmem : ∀ x ∈ (List.range count).map (fun i => source (discard + i)), x ≤ 1023 := by
      intro x hx
      obtain ⟨i, _, rfl⟩ := List.mem_map.mp hx
      exact hsrc _
    have hsum : ((List.range count).map (fun i => source (discard + i))).sum ≤ count * 1023 := by
      have := sum_le_of_forall_le _ 1023 hmem
      rwa [hlen] at this
    simp only [AdcSampler.sample]
    rw [foldl_accumulate (fun i => source (discard + i)) (List.range count) 0 (by omega)]
    rw [Nat.zero_add]
    by_cases hc1 : count = 1
    · subst hc1
      rw [if_pos rfl, if_pos rfl, Nat.mod_eq_of_lt (by omega), if_neg (by omega),
        min_eq_left (by omega)]
    · have hq : (((List.range count).map (fun i => source (discard + i))).sum + count / 2)
          / count ≤ 1023 := by
        have hdiv : (((List.range count).map (fun i => source (discard + i))).sum + count / 2)
            / count < 1024 := by
          rw [Nat.div_lt_iff_lt_mul (show 0 < count by omega)]
          omega
        omega
      rw [if_neg hc1, if_neg hc1, Nat.mod_eq_of_lt (by omega), if_neg (by omega),
        min_eq_left (by omega)]
  · intro settle
    rfl

/-- C8 witness: three samples of a constant source 10 average to 10. -/
theorem c8_sample_rounded_mean_witness : AdcSampler.sample 3 0 0 (fun _ => 10) = 10 := by
  have h := c8_sample_rounded_mean.1 3 0 0 (fun _ => 10) (by decide) (by decide)
    (fun _ => by show (10 : Nat) ≤ 1023; decide)
  rw [h]
  decide

/-- C7: readTemperature_x10() returns the sentinel -32768 exactly when a pipeline component
is missing (and then the sampler is never invoked), or the resistance conversion yields 0, or
the temperature conversion yields the sentinel (assuming the attached filter never outputs
the sentinel itself); on every failing read the filter state is unchanged, and on success the
filter's output (or the unfiltered temperature when no filter is attached) is returned. -/
theorem c7_read_sentinel
    (sampler : Option Nat) (resistanceConverter : Option (Nat → Nat))
    (temperatureConverter : Option (Nat → Int))
    (filter : Option (Int → Int → Int × Int)) (filterState : Int)
    (hfilter : ∀ f, filter = some f → ∀ s t, (f s t).2 ≠ SENTINEL_TEMPERATURE_x10) :
    ((TemperatureSensor.readTemperature_x10 sampler resistanceConverter temperatureConverter
        filter filterState).1 = SENTINEL_TEMPERATURE_x10 ↔
      sampler = none ∨ resistanceConverter = none ∨ temperatureConverter = none ∨
      (∃ raw rc tc, sampler = some raw ∧ resistanceConverter = some rc ∧
        temperatureConverter = some tc ∧
        (rc raw = 0 ∨ tc (rc raw) = SENTINEL_TEMPERATURE_x10)))
    ∧ ((TemperatureSensor.readTemperature_x10 sampler resistanceConverter temperatureConverter
        filter filterState).1 = SENTINEL_TEMPERATURE_x10 →
      (TemperatureSensor.readTemperature_x10 sampler resistanceConverter temperatureConverter
        filter filterState).2.1 = filterState)
    ∧ ((sampler = none ∨ resistanceConverter = none ∨ temperatureConverter = none) →
      (TemperatureSensor.readTemperature_x10 sampler resistanceConverter temperatureConverter
        filter filterState).2.2 = false)
    ∧ (∀ raw rc tc, sampler = some raw → resistanceConverter = some rc →
        temperatureConverter = some tc → rc raw ≠ 0 →
        tc (rc raw) ≠ SENTINEL_TEMPERATURE_x10 →
        (TemperatureSensor.readTemperature_x10 sampler resistanceConverter temperatureConverter
          filter filterState).1 =
          (match filter with
           | some f => (f filterState (tc (rc raw))).2
           | none => tc (rc raw))) := by
  rcases sampler with _ | raw
  · refine ⟨?_, ?_, ?_, ?_⟩
    · simp [TemperatureSensor.readTemperature_x10]
    · intro _
      simp [TemperatureSensor.readTemperature_x10]
    · intro _
      simp [TemperatureSensor.readTemperature_x10]
    · intro raw rc tc h
      exact absurd h (by simp)
  rcases resistanceConverter with _ | rc
  · refine ⟨?_, ?_, ?_, ?_⟩
    · simp [TemperatureSensor.readTemperature_x10]
    · intro _
      simp [TemperatureSensor.readTemperature_x10]
    · intro _
      simp [TemperatureSensor.readTemperature_x10]
    · intro raw' rc tc _ h
      exact absurd h (by simp)
  rcases temperatureConverter with _ | tc
  · refine ⟨?_, ?_, ?_, ?_⟩
    · simp [TemperatureSensor.readTemperature_x10]
    · intro _
      simp [TemperatureSensor.readTemperature_x10]
    · intro _
      simp [TemperatureSensor.readTemperature_x10]
    · intro raw' rc' tc _ _ h
      exact absurd h (by simp)
  by_cases h0 : rc raw = 0
  · refine ⟨?_, ?_, ?_, ?_⟩
    · simp only [TemperatureSensor.readTemperature_x10, if_pos h0]
      simp only [true_iff]
      exact Or.inr (Or.inr (Or.inr ⟨raw, rc, tc, rfl, rfl, rfl, Or.inl h0⟩))
    · intro _
      simp [TemperatureSensor.readTemperature_x10, if_pos h0]
    · intro h
      rcases h with h | h | h <;> exact absurd h (by simp)
    · intro raw' rc' tc' hraw hrc htc hne _
      cases hraw
      cases hrc
      cases htc
      exact absurd h0 hne
  by_cases hs : tc (rc raw) = SENTINEL_TEMPERATURE_x10
  · refine ⟨?_, ?_, ?_, ?_⟩
    · simp only [TemperatureSensor.readTemperature_x10, if_neg h0, if_pos hs]
      simp only [true_iff]
      exact Or.inr (Or.inr (Or.inr ⟨raw, rc, tc, rfl, rfl, rfl, Or.inr hs⟩))
    · intro _
      simp [TemperatureSensor.readTemperature_x10, if_neg h0, if_pos hs]
    · intro h
      rcases h with h | h | h <;> exact absurd h (by simp)
    · intro raw' rc' tc' hraw hrc htc _ hne
      cases hraw
      cases hrc
      cases htc
      exact absurd hs hne
  · have hval : (TemperatureSensor.readTemperature_x10 (some raw) (some rc) (some tc)
        filter filterState).1 =
        (match filter with
         | some f => (f filterState (tc (rc raw))).2
         | none => tc (rc raw)) := by
      rcases filter with _ | f
      · simp [TemperatureSensor.readTemperature_x10, if_neg h0, if_neg hs]
      · simp [TemperatureSensor.readTemperature_x10, if_neg h0, if_neg hs]
    have hnotsent : (TemperatureSensor.readTemperature_x10 (some raw) (some rc) (some tc)
        filter filterState).1 ≠ SENTINEL_TEMPERATURE_x10 := by
      rw [hval]
      rcases filter with _ | f
      · exact hs
      · exact hfilter f rfl filterState (tc (rc raw))
    refine ⟨?_, ?_, ?_, ?_⟩
    · simp only [hnotsent, false_iff]
      rintro (h | h | h | ⟨raw', rc', tc', hraw, hrc, htc, hbad⟩)
      · exact Option.noConfusion h
      · exact Option.noConfusion h
      · exact Option.noConfusion h
      · cases hraw
        cases hrc
        cases htc
        rcases hbad with hb | hb
        · exact h0 hb
        · exact hs hb
    · intro h
      exact absurd h hnotsent
    · intro h
      rcases h with h | h | h <;> exact absurd h (by simp)
    · intro raw' rc' tc' hraw hrc htc _ _
      cases hraw
      cases hrc
      cases htc
      exact hval

/-- C7 witness: with no sampler attached (Unconfigured pipeline) the read returns the
sentinel. -/
theorem c7_read_sentinel_witness :
    (TemperatureSensor.readTemperature_x10 none (some (fun _ => 5)) (some (fun _ => 250))
      none 7).1 = SENTINEL_TEMPERATURE_x10 :=
  (c7_read_sentinel none (some (fun _ => 5)) (some (fun _ => 250)) none 7
    (fun _ hf => nomatch hf)).1.mpr (Or.inl rfl)

lemma bsLoop_exact (keys : List Nat) (target : Nat) (order : LutOrder) (i : Nat)
    (hN : keys.length < u64Mod) (hi : i < keys.length)
    (htarget : keys.getD i 0 = target)
    (huniq : ∀ j, j < keys.length → keys.getD j 0 = target → j = i)
    (hcmp : ∀ j, j < keys.length → keys.getD j 0 ≠ target →
      (goLeftCond order target (keys.getD j 0) = true ↔ i < j)) :
    ∀ (fuel left right : Nat), left ≤ i → i ≤ right → right < keys.length →
      right - left < fuel →
      bsLoop keys target order left right fuel = .ok ⟨i, i, i, true, false, false⟩ := by
  intro fuel
  induction fuel with
  | zero =>
    intro left right _ _ _ hf
    omega
  | succ f ih =>
    intro left right hl hr hrN hf
    have hlr : left ≤ right := le_trans hl hr
    simp only [bsLoop]
    rw [if_pos hlr]
    set mid := left + (right - left) / 2 with hmiddef
    have hmid_le : mid ≤ right := by omega
    have hmid_ge : left ≤ mid := by omega
    have hmidN : mid < keys.length := lt_of_le_of_lt hmid_le hrN
    rw [if_pos hmidN]
    by_cases hk : keys.getD mid 0 = target
    · rw [if_pos hk]
      have hmi : mid = i := huniq mid hmidN hk
      rw [hmi]
    · rw [if_neg hk]
      by_cases hgl : goLeftCond order target (keys.getD mid 0) = true
      · rw [if_pos hgl]
        have himid : i < mid := (hcmp mid hmidN hk).mp hgl
        rw [size_t_pred mid (by omega) (lt_trans hmidN hN)]
        exact ih left (mid - 1) hl (by omega) (by omega) (by omega)
      · rw [if_neg hgl]
        have hmidi : mid < i := by
          have hnot : ¬ i < mid := fun hc => hgl ((hcmp mid hmidN hk).mpr hc)
          have hne : mid ≠ i := fun he => hk (he ▸ htarget)
          omega
        rw [size_t_succ mid (by omega)]
        exact ih (mid + 1) right (by omega) hr hrN (by omega)

lemma getD_inj_of_strict (keys : List Nat) (i j : Nat)
    (hne : ∀ a b, a < b → b < keys.length → keys.getD a 0 ≠ keys.getD b 0)
    (hi : i < keys.length) (hj : j < keys.length)
    (he : keys.getD j 0 = keys.getD i 0) : j = i := by
  rcases Nat.lt_trichotomy j i with h1 | h1 | h1
  · exact absurd he (hne j i h1 hi)
  · exact h1
  · exact absurd he.symm (hne i j h1 hj)

lemma hcmp_inc (keys : List Nat) (h : List.Pairwise (fun a b => a < b) keys)
    (i : Nat) (hi : i < keys.length) :
    ∀ j, j < keys.length → keys.getD j 0 ≠ keys.getD i 0 →
      (goLeftCond .INCREASING (keys.getD i 0) (keys.getD j 0) = true ↔ i < j) := by
  intro j hj hne
  simp only [goLeftCond, decide_eq_true_eq]
  constructor
  · intro hlt
    rcases Nat.lt_trichotomy i j with h1 | h1 | h1
    · exact h1
    · subst h1
      exact absurd hlt (lt_irrefl _)
    · exact absurd (pairwise_getD keys _ h j i h1 hi) (by omega)
  · intro h1
    exact pairwise_getD keys _ h i j h1 hj

lemma hcmp_dec (keys : List Nat) (h : List.Pairwise (fun a b => b < a) keys)
    (i : Nat) (hi : i < keys.length) :
    ∀ j, j < keys.length → keys.getD j 0 ≠ keys.getD i 0 →
      (goLeftCond .DECREASING (keys.getD i 0) (keys.getD j 0) = true ↔ i < j) := by
  intro j hj hne
  simp only [goLeftCond, Bool.not_eq_true', decide_eq_false_iff_not]
  constructor
  · intro hnlt
    rcases Nat.lt_trichotomy i j with h1 | h1 | h1
    · exact h1
    · subst h1
      exact absurd rfl hne
    · exact absurd (pairwise_getD keys _ h j i h1 hi) hnlt
  · intro h1
    have := pairwise_getD keys _ h i j h1 hj
    omega

lemma uniq_of_pairwise_inc (keys : List Nat) (h : List.Pairwise (fun a b => a < b) keys)
    (i : Nat) (hi : i < keys.length) :
    ∀ j, j < keys.length → keys.getD j 0 = keys.getD i 0 → j = i := by
  intro j hj he
  exact getD_inj_of_strict keys i j
    (fun a b hab hb => Nat.ne_of_lt (pairwise_getD keys _ h a b hab hb)) hi hj he

lemma uniq_of_pairwise_dec (keys : List Nat) (h : List.Pairwise (fun a b => b < a) keys)
    (i : Nat) (hi : i < keys.length) :
    ∀ j, j < keys.length → keys.getD j 0 = keys.getD i 0 → j = i := by
  intro j hj he
  exact getD_inj_of_strict keys i j
    (fun a b hab hb => Nat.ne_of_gt (pairwise_getD keys _ h a b hab hb)) hi hj he

lemma binarySearchLut_exact (keys : List Nat) (order : LutOrder) (i : Nat)
    (hN : keys.length < u64Mod) (hi : i < keys.length)
    (hmono : strictMonoKeys order keys) :
    binarySearchLut keys (keys.getD i 0) order = .ok ⟨i, i, i, true, false, false⟩ := by
  unfold binarySearchLut
  rw [size_t_pred keys.length (by omega) hN]
  cases order with
  | INCREASING =>
    have hp : List.Pairwise (fun a b => a < b) keys := hmono
    exact bsLoop_exact keys _ .INCREASING i hN hi rfl (uniq_of_pairwise_inc keys hp i hi)
      (hcmp_inc keys hp i hi) u64Mod 0 (keys.length - 1) (by omega) (by omega) (by omega)
      (by omega)
  | DECREASING =>
    have hp : List.Pairwise (fun a b => b < a) keys := hmono
    exact bsLoop_exact keys _ .DECREASING i hN hi rfl (uniq_of_pairwise_dec keys hp i hi)
      (hcmp_dec keys hp i hi) u64Mod 0 (keys.length - 1) (by omega) (by omega) (by omega)
      (by omega)
  | AUTO =>
    obtain ⟨h2, hm⟩ := hmono
    rcases hm with hinc | hdec
    · have h01 : keys.getD 0 0 < keys.getD 1 0 := pairwise_getD keys _ hinc 0 1 (by omega)
        (by omega)
      have hres : resolveLutOrder keys .AUTO = .INCREASING := by
        unfold resolveLutOrder
        rw [if_neg (by omega), if_pos (Nat.le_of_lt h01)]
      rw [hres]
      exact bsLoop_exact keys _ .INCREASING i hN hi rfl (uniq_of_pairwise_inc keys hinc i hi)
        (hcmp_inc keys hinc i hi) u64Mod 0 (keys.length - 1) (by omega) (by omega) (by omega)
        (by omega)
    · have h01 : keys.getD 1 0 < keys.getD 0 0 := pairwise_getD keys _ hdec 0 1 (by omega)
        (by omega)
      have hres : resolveLutOrder keys .AUTO = .DECREASING := by
        unfold resolveLutOrder
        rw [if_neg (by omega), if_neg (by omega)]
      rw [hres]
      exact bsLoop_exact keys _ .DECREASING i hN hi rfl (uniq_of_pairwise_dec keys hdec i hi)
        (hcmp_dec keys hdec i hi) u64Mod 0 (keys.length - 1) (by omega) (by omega) (by omega)
        (by omega)

/-- C6: for every strictly monotonic table (in the order the hint names, or either order
under AUTO) and every target equal to the key of entry i, the binary search returns
`foundExact = true` with `lowerIdx = upperIdx = exactIdx = i` and `outOfRange = false`; and
`convertToTemperature_x10` applied to the resistance of entry i of a strictly decreasing
table of positive resistances returns that entry's stored temperature directly. -/
theorem c6_exact_match :
    (∀ (keys : List Nat) (order : LutOrder) (i : Nat),
       keys.length < u64Mod → i < keys.length → strictMonoKeys order keys →
       binarySearchLut keys (keys.getD i 0) order = .ok ⟨i, i, i, true, false, false⟩)
    ∧ (∀ (lut : List (Nat × Int)) (i : Nat),
       lut.length < u64Mod → i < lut.length →
       List.Pairwise (fun a b => b.1 < a.1) lut → (∀ e ∈ lut, 0 < e.1) →
       convertToTemperature_x10 lut (lut.getD i (0, 0)).1 = .ok (lut.getD i (0, 0)).2) := by
  constructor
  · intro keys order i hN hi hmono
    exact binarySearchLut_exact keys order i hN hi hmono
  · intro lut i hN hi hpair hpos
    have hmem : lut.getD i (0, 0) ∈ lut := by
      rw [List.getD_eq_getElem lut (0, 0) hi]
      exact List.getElem_mem _
    have hr : (lut.getD i (0, 0)).1 ≠ 0 := (hpos _ hmem).ne'
    have hlenm : (lut.map Prod.fst).length = lut.length := List.length_map _ _
    have hkey : (lut.map Prod.fst).getD i 0 = (lut.getD i (0, 0)).1 := by
      rw [List.getD_eq_getElem _ 0 (by omega), List.getD_eq_getElem lut (0, 0) hi,
        List.getElem_map]
    have hsearch : binarySearchLut (lut.map Prod.fst) (lut.getD i (0, 0)).1 .DECREASING
        = .ok ⟨i, i, i, true, false, false⟩ := by
      rw [← hkey]
      exact binarySearchLut_exact (lut.map Prod.fst) .DECREASING i (by omega) (by omega)
        (List.pairwise_map.mpr hpair)
    unfold convertToTemperature_x10
    rw [if_neg hr, hsearch]
    rfl

/-- C6 witness: on the spec's illustrative three-entry table, searching the middle entry's
resistance 50000 finds index 1 exactly and the converter returns its temperature 250. -/
theorem c6_exact_match_witness :
    binarySearchLut [1000000, 50000, 10000] 50000 .DECREASING = .ok ⟨1, 1, 1, true, false, false⟩
    ∧ convertToTemperature_x10 [(1000000, -400), (50000, 250), (10000, 400)] 50000 = .ok 250 := by
  constructor
  · have h := c6_exact_match.1 [1000000, 50000, 10000] .DECREASING 1 (by decide) (by decide)
      (by decide)
    simpa using h
  · have h := c6_exact_match.2 [(1000000, -400), (50000, 250), (10000, 400)] 1 (by decide)
      (by decide) (by decide) (by decide)
    simpa using h

end NTCReader
